import Mathlib

/-!
# Verification of the cppmatch header-only result/match library

Shallow embedding of `include/match.hpp` (namespace `cppmatch`) and of the
`zip_match` combinator file.  C++ `std::variant<T, E>` values are embedded as a
two-constructor inductive (`ok` = alternative index 0, `err` = alternative
index 1); nested `Error<Ts...>`/variant values are embedded as a tree whose
leaves carry a type tag (the concrete C++ type of the leaf) together with a
value of that type, mirroring exactly the three `if constexpr` branches of
`flat_visit`.  The variadic `zip_match` machinery is embedded over lists: the
position-by-position type comparison `is_same_v<Actual, Expected>` of
`pick_first_error_impl` holds precisely when the visited alternative is the
success alternative (the library requires `T` and `E` to be distinct types for
`Result<T, E>` construction to be unambiguous), so it is rendered as the
constructor test `is_ok`.
-/

namespace cppmatch

/-- Model of `Result<T, E> = std::variant<T, E>`: `ok` is alternative index 0 (the
success type `T`), `err` is alternative index 1 (the error type `E`). -/
inductive Result (T E : Type) : Type
  | ok  : T → Result T E
  | err : E → Result T E
deriving DecidableEq, Repr

/-- Model of `std::variant::index()` of a `Result` value. -/
def Result.index {T E : Type} : Result T E → Nat
  | .ok _ => 0
  | .err _ => 1

/-- Predicate `is_err`: at runtime the C++ returns `result.index()` converted to `bool`
(index 1 means the error alternative); at compile time it uses
`holds_alternative<E>`, which agrees whenever `T ≠ E`. -/
def is_err {T E : Type} (result : Result T E) : Bool :=
  result.index != 0

/-- Predicate `is_ok(result) = !is_err(result)`. -/
def is_ok {T E : Type} (result : Result T E) : Bool :=
  !is_err result

/-- Model of `std::get<0>`/`get_if<0>` as a partial projection: the success
value when alternative 0 is active. -/
def okValue {T E : Type} : Result T E → Option T
  | .ok t => some t
  | .err _ => none

/-- Model of `std::get<1>` as a partial projection: the error value when
alternative 1 is active. -/
def errValue {T E : Type} : Result T E → Option E
  | .ok _ => none
  | .err e => some e

/-!
## Nested union values and `flat_visit`

A value handed to `match`/`flat_visit` is either a raw leaf value, an
`Error<Ts...>` object (whose single member `.value` is a `std::variant`), or a
`std::variant` with some active alternative.  The tree below records exactly
that shape.  Leaf payload types are drawn from a family `Ty : Fin k → Type`:
the tag `i` stands for the concrete C++ type of the leaf, which is what the
`overloaded` handler set dispatches on.
-/

/-- A (possibly nested) variant/`Error` value over the leaf-type family `Ty`.
`leaf i x` is a plain value of type `Ty i`; `errorWrap v` is an
`Error<Ts...>` object whose `.value` member is `v`; `variantAlt idx v` is a
`std::variant` whose active alternative (at index `idx`) holds `v`. -/
inductive NestedVal (k : Nat) (Ty : Fin k → Type) : Type
  | leaf (i : Fin k) (x : Ty i) : NestedVal k Ty
  | errorWrap (inner : NestedVal k Ty) : NestedVal k Ty
  | variantAlt (idx : Nat) (inner : NestedVal k Ty) : NestedVal k Ty

/-- Recursion `flat_visit(value, vis)`: if the value is an `Error`, recurse into its
`.value` member; if it is a `std::variant`, `std::visit` the active
alternative and recurse; otherwise apply the visitor to the leaf value.  The
visitor is the `overloaded` handler set, dispatching on the leaf's type tag. -/
def flat_visit {k : Nat} {Ty : Fin k → Type} {B : Type}
    (vis : (i : Fin k) → Ty i → B) : NestedVal k Ty → B
  | .errorWrap v => flat_visit vis v
  | .variantAlt _ v => flat_visit vis v
  | .leaf i x => vis i x

/-- Dispatch `match(v, lambdas...) = flat_visit(v, overloaded with lambdas)`.  The
handler family `lambdas`, indexed by leaf-type tag, is the `overloaded` set
(one handler per concrete leaf type). -/
def matchv {k : Nat} {Ty : Fin k → Type} {B : Type}
    (v : NestedVal k Ty) (lambdas : (i : Fin k) → Ty i → B) : B :=
  flat_visit lambdas v

/-- Modelled from the spec: the "innermost concrete active alternative" of a
nested union value — the leaf reached by repeatedly taking the active
alternative through every nesting level.  This is the spec-side
characterisation against which the library's `flat_visit` dispatch is
compared. -/
def spec_innermost_alternative {k : Nat} {Ty : Fin k → Type} :
    NestedVal k Ty → Sigma Ty
  | .leaf i x => ⟨i, x⟩
  | .errorWrap v => spec_innermost_alternative v
  | .variantAlt _ v => spec_innermost_alternative v

/-!
## The nested `match`-of-`match` instance (spec's 3-way-union example)

A `Result<A, Error<E1, E2, E3>>` — an outcome whose error alternative is a
3-way union — instantiated with leaf-type tags `0 ↦ A`, `1 ↦ E1`, `2 ↦ E2`,
`3 ↦ E3`.
-/

/-- Union `Error<E1, E2, E3>` with a concrete active alternative, as a typed value
(for comparison with the library's tag-tree embedding). -/
inductive Err3 (E1 E2 E3 : Type) : Type
  | alt1 : E1 → Err3 E1 E2 E3
  | alt2 : E2 → Err3 E1 E2 E3
  | alt3 : E3 → Err3 E1 E2 E3

/-- Leaf-type family for the `Result<A, Error<E1, E2, E3>>` shape. -/
def Ty4 (A E1 E2 E3 : Type) : Fin 4 → Type
  | ⟨0, _⟩ => A
  | ⟨1, _⟩ => E1
  | ⟨2, _⟩ => E2
  | ⟨3, _⟩ => E3

/-- Handler set `overloaded` of `ha, h1, h2, h3`: the handler set with one handler per
concrete leaf type, dispatching on the leaf's type. -/
def overloaded4 {A E1 E2 E3 B : Type}
    (ha : A → B) (h1 : E1 → B) (h2 : E2 → B) (h3 : E3 → B) :
    (i : Fin 4) → Ty4 A E1 E2 E3 i → B
  | ⟨0, _⟩ => ha
  | ⟨1, _⟩ => h1
  | ⟨2, _⟩ => h2
  | ⟨3, _⟩ => h3

/-- The `Error<E1, E2, E3>` value as `flat_visit` sees it: an `Error` object
whose `.value` variant holds the active alternative. -/
def encodeErr3 {A E1 E2 E3 : Type} : Err3 E1 E2 E3 → NestedVal 4 (Ty4 A E1 E2 E3)
  | .alt1 x => .errorWrap (.variantAlt 0 (.leaf ⟨1, by omega⟩ x))
  | .alt2 x => .errorWrap (.variantAlt 1 (.leaf ⟨2, by omega⟩ x))
  | .alt3 x => .errorWrap (.variantAlt 2 (.leaf ⟨3, by omega⟩ x))

/-- The `Result<A, Error<E1, E2, E3>>` value as `flat_visit` sees it: a
two-alternative variant whose error alternative is the `Error` object. -/
def encodeResult {A E1 E2 E3 : Type} :
    Result A (Err3 E1 E2 E3) → NestedVal 4 (Ty4 A E1 E2 E3)
  | .ok a => .variantAlt 0 (.leaf ⟨0, by omega⟩ a)
  | .err e => .variantAlt 1 (encodeErr3 e)

/-- Direct case analysis on the inner 3-way union (the inner `match` of the
nested formulation). -/
def match_err3 {E1 E2 E3 B : Type} (e : Err3 E1 E2 E3)
    (h1 : E1 → B) (h2 : E2 → B) (h3 : E3 → B) : B :=
  match e with
  | .alt1 x => h1 x
  | .alt2 x => h2 x
  | .alt3 x => h3 x

/-- The nested `match`-of-`match` formulation: first dispatch on the outer
outcome, then match the error union with its own per-type handlers. -/
def nested_match {A E1 E2 E3 B : Type} (r : Result A (Err3 E1 E2 E3))
    (ha : A → B) (h1 : E1 → B) (h2 : E2 → B) (h3 : E3 → B) : B :=
  match r with
  | .ok a => ha a
  | .err e => match_err3 e h1 h2 h3

/-!
## The `expect` propagation macro

`expect(expr)` is a statement expression: it binds the `Result`, and `if
(is_err(expr_)) return std::get<1>(std::move(expr_));` makes the *enclosing
function* return the error alternative; otherwise the statement expression
yields `std::get<0>(std::move(expr_))` and the rest of the enclosing function
runs with that value.  We embed the enclosing function's remainder as an
explicit continuation `rest` producing the enclosing function's own
`Result`. -/

/-- Run `expect(r)` inside an enclosing function whose remainder is `rest`:
on the error alternative the enclosing function returns `std::get<1>` as its
own failure immediately; on the success alternative `rest` continues with
`std::get<0>`. -/
def expect_run {T E U : Type} (r : Result T E) (rest : T → Result U E) :
    Result U E :=
  match r with
  | .err e => .err e
  | .ok t => rest t

/-- Combinator `map_error(result, f)`: `match` with one handler per (leaf) alternative —
the success handler rebuilds alternative 0 with the same value, the error
handler rebuilds alternative 1 with `f(err)`. -/
def map_error {T E1 E2 : Type} (result : Result T E1) (f : E1 → E2) :
    Result T E2 :=
  match result with
  | .ok val => .ok val
  | .err e => .err (f e)

/-- Function `expect_e(v)`: if `is_err(v)`, `match(std::get<1>(v), [](auto&& err) {
throw err; })` throws the *flattened* innermost leaf of the error alternative
(the catch-all handler receives the leaf after `flat_visit` unwraps every
nesting level); otherwise the function returns `std::get<0>(v)`.  Raising is
embedded as `Except.error`. -/
def expect_e {T : Type} {k : Nat} {Ty : Fin k → Type}
    (v : Result T (NestedVal k Ty)) : Except (Sigma Ty) T :=
  match v with
  | .err nv => flat_visit (fun i x => Except.error ⟨i, x⟩) nv
  | .ok t => Except.ok t

/-!
## `zip_match`

The variadic `zip_match(f, rs...)` is embedded over lists.  `zip_match_impl`
`std::visit`s every argument simultaneously; the per-position test
`is_same_v<decay_t<Args>, tuple_element_t<I, SuccessTuple>>` ("the visited
alternative's type is the success type") is precisely the tag test `is_ok`
(the library's `Result<T, E>` requires `T ≠ E`).  When every position passes,
`f` is applied to the unwrapped success values; otherwise
`pick_first_error_impl` walks the positions left to right and returns the
first alternative whose type is not its position's success type. -/

/-- Recursion `pick_first_error_impl<I, SuccessTuple>(tup)`: recurse over the argument
positions from the left; at the first position whose visited alternative is
not the success alternative, return that error value.  Walking off the end
(the branch guarded by the inert `static_assert`) is unreachable when some
argument failed; it is rendered as `none`. -/
def pick_first_error_impl {T E : Type} : List (Result T E) → Option E
  | [] => none
  | Result.ok _ :: rest => pick_first_error_impl rest
  | Result.err e :: _ => some e

/-- Entry point `pick_first_error<SuccessTuple>(args...)` forwards the arguments as a
tuple to `pick_first_error_impl` starting at position 0. -/
def pick_first_error {T E : Type} (args : List (Result T E)) : Option E :=
  pick_first_error_impl args

/-- Model of `std::monostate`, the canonical empty-success marker. -/
abbrev monostate : Type := Unit

/-- Combinator `zip_match(f, rs...)` for a value-returning `f`: if every visited
alternative is the success alternative, the joined outcome is alternative 0
holding `f` applied to the unwrapped values (for an all-success list,
`filterMap okValue` is exactly the list of unwrapped success values in
order); otherwise it is alternative 1 holding `pick_first_error`.  The final
`none` arm mirrors `pick_first_error_impl`'s unreachable end-of-tuple
branch. -/
def zip_match {T E S : Type} (f : List T → S) (rs : List (Result T E)) :
    Result S E :=
  if rs.all (fun r => is_ok r) then
    Result.ok (f (rs.filterMap okValue))
  else
    match pick_first_error rs with
    | some e => Result.err e
    | none => Result.ok (f (rs.filterMap okValue))

/-- Combinator `zip_match` for a void-returning `f` (the `is_void_v` branch of
`zip_match_impl`): invoke `f`, discard, and produce alternative 0 holding
`std::monostate{}`. -/
def zip_match_void {T E : Type} (f : List T → monostate)
    (rs : List (Result T E)) : Result monostate E :=
  if rs.all (fun r => is_ok r) then
    let _ := f (rs.filterMap okValue)
    Result.ok ()
  else
    match pick_first_error rs with
    | some e => Result.err e
    | none => Result.ok ()

/-!
## The deduced joined error type

`deduced_error_t<Es...>` is a type-level computation; error types are embedded
as codes drawn from an arbitrary type `TC` with decidable equality, and the
computed C++ type is either a single plain type or a `std::variant` over a
list of alternative types. -/

/-- The C++ type computed by `deduced_error_t`: either the single common error
type or `std::variant<Es...>`. -/
inductive ErrKind (TC : Type) : Type
  | single : TC → ErrKind TC
  | union : List TC → ErrKind TC
deriving DecidableEq, Repr

/-- Test `all_same_v<Es...>`: the conjunction over every `E` in the pack of
`is_same_v<E, tuple_element_t<0, tuple<Es...>>>`.  The pack is non-empty
(`tuple_element_t<0, ...>` requires it), so it is passed as head `e` and tail
`es`. -/
def all_same_v {TC : Type} [DecidableEq TC] (e : TC) (es : List TC) : Bool :=
  (e :: es).all (fun x => decide (x = e))

/-- Computation `deduced_error_t<Es...>`: the first pack element if all are the same type,
otherwise `std::variant<Es...>` over the whole pack in order. -/
def deduced_error_t {TC : Type} [DecidableEq TC] (e : TC) (es : List TC) :
    ErrKind TC :=
  if all_same_v e es then ErrKind.single e else ErrKind.union (e :: es)

/-- The list of alternative types of a deduced error type (a plain type is
its own single alternative). -/
def ErrKind.alternatives {TC : Type} : ErrKind TC → List TC
  | .single t => [t]
  | .union l => l

/-!
## The `Error` widening conversion

`Error<Ts...>` holds a `std::variant<Ts...>`.  The alternative-type list is
embedded as a list `L` of type codes (an arbitrary type `TC` with decidable
equality stands for the universe of C++ types); a variant value records which
alternative index is active together with the contained payload.  The
`std::variant` converting constructor from a value of alternative type `c`
activates the alternative whose type is `c` (the library's closed error sets
list each type once, so that alternative is the first occurrence of `c`). -/

/-- A `std::variant` over the alternative-type list `L`: the active
alternative's index plus the contained payload value. -/
structure Variant (TC V : Type) (L : List TC) where
  idx : Fin L.length
  val : V

/-- The concrete type of the active alternative. -/
def Variant.activeType {TC V : Type} {L : List TC} (v : Variant TC V L) : TC :=
  L.get v.idx

/-- The `std::variant<Ts...>` converting constructor from a value whose type
`c` is one of the alternatives: activate the alternative of type `c`, keeping
the value. -/
def Variant.ofValue {TC V : Type} [DecidableEq TC] (L : List TC) (c : TC)
    (h : c ∈ L) (v : V) : Variant TC V L :=
  ⟨⟨List.indexOf c L, List.indexOf_lt_length.mpr h⟩, v⟩

/-- Class `Error<Ts...>`: a thin wrapper whose single member `value` is the
underlying `std::variant<Ts...>`. -/
structure Error (TC V : Type) (L : List TC) where
  value : Variant TC V L

/-- The widening copy constructor `Error(const Error<Us...>&)` (enabled only
when every `U` is among the target's types): `std::visit` the source's active
alternative and rebuild the target variant from that value. -/
def Error.widen_copy {TC V : Type} [DecidableEq TC] {L Lt : List TC}
    (h : ∀ c ∈ L, c ∈ Lt) (other : Error TC V L) : Error TC V Lt :=
  ⟨Variant.ofValue Lt (L.get other.value.idx)
    (h _ (List.get_mem L other.value.idx.1 other.value.idx.2))
    other.value.val⟩

/-- The widening move constructor `Error(Error<Us...>&&)`: same visit-and-
rebuild as the copy constructor, from a moved-from source. -/
def Error.widen_move {TC V : Type} [DecidableEq TC] {L Lt : List TC}
    (h : ∀ c ∈ L, c ∈ Lt) (other : Error TC V L) : Error TC V Lt :=
  ⟨Variant.ofValue Lt (L.get other.value.idx)
    (h _ (List.get_mem L other.value.idx.1 other.value.idx.2))
    other.value.val⟩

/-- Concrete narrow error value for the widening witness: alternative index 1
(type code 11) holding payload 42, in the set `[10, 11]`. -/
def sampleNarrowError : Error Nat Nat [10, 11] :=
  ⟨⟨⟨1, by decide⟩, 42⟩⟩

/-- The subset fact `[10, 11] ⊆ [10, 11, 12]` used by the widening witness. -/
def sampleSubset : ∀ c ∈ ([10, 11] : List Nat), c ∈ ([10, 11, 12] : List Nat) := by
  decide

/-!
## The `successes` range adaptor

`range | successes` is `filter(is_ok) | transform(get<0>)`; the embedding is
over lists.  `std::get<0>` is applied only to elements that passed the
`is_ok` filter; its model returns an arbitrary default on the (never reached)
error alternative. -/

/-- Model of `std::get<0>` as used after the `is_ok` filter (total model: a default on
the unreached error alternative). -/
def get0D {T E : Type} [Inhabited T] : Result T E → T
  | .ok t => t
  | .err _ => default

/-- The `successes` adaptor: keep the results that satisfy `is_ok`, then map
each to its `std::get<0>` success value. -/
def successes {T E : Type} [Inhabited T] (rs : List (Result T E)) : List T :=
  (rs.filter (fun res => is_ok res)).map (fun res => get0D res)

end cppmatch

namespace cppmatch

/-- Shared helper: `flat_visit` applies the visitor to exactly the innermost
active leaf. -/
theorem flat_visit_eq_innermost {k : Nat} {Ty : Fin k → Type} {B : Type}
    (vis : (i : Fin k) → Ty i → B) (v : NestedVal k Ty) :
    flat_visit vis v =
      vis (spec_innermost_alternative v).1 (spec_innermost_alternative v).2 := by
  induction v with
  | leaf i x => rfl
  | errorWrap v ih => simpa [flat_visit, spec_innermost_alternative] using ih
  | variantAlt idx v ih => simpa [flat_visit, spec_innermost_alternative] using ih

/-- C1: `match` over any (possibly nested) union value dispatches to exactly
the handler whose accepted type tag is that of the innermost concrete active
alternative and returns that handler's result; and on the spec's
`Result<A, Error<E1, E2, E3>>` shape the flat per-leaf-handler `match` agrees
with the equivalent nested `match`-of-`match` formulation over the same
value. -/
theorem c1_match_flattening_and_nested_equivalence :
    (∀ (k : Nat) (Ty : Fin k → Type) (B : Type)
        (lambdas : (i : Fin k) → Ty i → B) (v : NestedVal k Ty),
      matchv v lambdas =
        lambdas (spec_innermost_alternative v).1 (spec_innermost_alternative v).2) ∧
    (∀ (A E1 E2 E3 B : Type) (r : Result A (Err3 E1 E2 E3))
        (ha : A → B) (h1 : E1 → B) (h2 : E2 → B) (h3 : E3 → B),
      matchv (encodeResult r) (overloaded4 ha h1 h2 h3) =
        nested_match r ha h1 h2 h3) := by
  constructor
  · intro k Ty B lambdas v
    exact flat_visit_eq_innermost lambdas v
  · intro A E1 E2 E3 B r ha h1 h2 h3
    cases r with
    | ok a => rfl
    | err e => cases e <;> rfl

/-- C2: `expect` on a success evaluates to the contained success value and the
enclosing computation continues with it; on a failure the enclosing function
returns immediately with the same error value as its own failure alternative,
and the code after the propagation point (the continuation) never executes —
the outcome is the same for every continuation. -/
theorem c2_expect_propagation :
    (∀ (T E U : Type) (t : T) (rest : T → Result U E),
      expect_run (Result.ok t) rest = rest t) ∧
    (∀ (T E U : Type) (e : E) (rest : T → Result U E),
      expect_run (Result.err e) rest = Result.err e) ∧
    (∀ (T E U : Type) (e : E) (rest₁ rest₂ : T → Result U E),
      expect_run (Result.err e) rest₁ = expect_run (Result.err e) rest₂) := by
  refine ⟨fun T E U t rest => rfl, fun T E U e rest => rfl,
    fun T E U e rest₁ rest₂ => rfl⟩

/-- C7: `map_error` on a success returns a success holding the same value and
never invokes `f` (the outcome is identical for every mapping function); on a
failure it returns a failure whose error is `f` applied to the original error
(the single invocation's result). -/
theorem c7_map_error :
    (∀ (T E1 E2 : Type) (v : T) (f : E1 → E2),
      map_error (Result.ok v) f = Result.ok v) ∧
    (∀ (T E1 E2 : Type) (v : T) (f g : E1 → E2),
      map_error (Result.ok v) f = map_error (Result.ok v) g) ∧
    (∀ (T E1 E2 : Type) (e : E1) (f : E1 → E2),
      map_error (Result.err e : Result T E1) f = Result.err (f e)) := by
  refine ⟨fun T E1 E2 v f => rfl, fun T E1 E2 v f g => rfl,
    fun T E1 E2 e f => rfl⟩

/-- C9: a `Result<T, E>` constructed from a `T` value (alternative 0, which is
what the variant converting constructor selects when `T` and `E` are distinct)
satisfies `is_ok` and not `is_err` and `std::get<0>` unwraps to that exact
value; constructed from an `E` value it satisfies `is_err` and not `is_ok`
and `std::get<1>` unwraps to that exact value. -/
theorem c9_construction_tags :
    (∀ (T E : Type) (t : T),
      is_ok (Result.ok t : Result T E) = true ∧
      is_err (Result.ok t : Result T E) = false ∧
      okValue (Result.ok t : Result T E) = some t) ∧
    (∀ (T E : Type) (e : E),
      is_err (Result.err e : Result T E) = true ∧
      is_ok (Result.err e : Result T E) = false ∧
      errValue (Result.err e : Result T E) = some e) := by
  exact ⟨fun T E t => ⟨rfl, rfl, rfl⟩, fun T E e => ⟨rfl, rfl, rfl⟩⟩

/-- C10: `expect_e` on a success returns the contained success value; on a
failure it never returns normally and raises the innermost leaf error value
obtained by recursively flattening the error alternative through nested
`Error` unions. -/
theorem c10_expect_e :
    (∀ (T : Type) (k : Nat) (Ty : Fin k → Type) (t : T),
      expect_e (Result.ok t : Result T (NestedVal k Ty)) = Except.ok t) ∧
    (∀ (T : Type) (k : Nat) (Ty : Fin k → Type) (nv : NestedVal k Ty),
      expect_e (Result.err nv : Result T (NestedVal k Ty)) =
        Except.error (spec_innermost_alternative nv)) := by
  refine ⟨fun T k Ty t => rfl, fun T k Ty nv => ?_⟩
  have h := flat_visit_eq_innermost
    (fun i x => (Except.error ⟨i, x⟩ : Except (Sigma Ty) T)) nv
  simp only [expect_e]
  rw [h]

/-- Shared helper: a list containing a failure is not all-success. -/
theorem all_ok_append_err {T E : Type} (pre : List (Result T E)) (e : E)
    (post : List (Result T E)) :
    (pre ++ Result.err e :: post).all (fun r => is_ok r) = false := by
  simp [List.all_append, List.all_cons, is_ok, is_err, Result.index]

/-- Shared helper: `pick_first_error_impl` past an all-success prefix returns
the error at the first failing position. -/
theorem pick_first_error_impl_append {T E : Type} (e : E)
    (post : List (Result T E)) :
    ∀ pre : List (Result T E), (∀ x ∈ pre, is_ok x = true) →
      pick_first_error_impl (pre ++ Result.err e :: post) = some e := by
  intro pre
  induction pre with
  | nil => intro _; rfl
  | cons r pre ih =>
    intro h
    cases r with
    | ok t =>
      simpa [pick_first_error_impl] using
        ih (fun x hx => h x (List.mem_cons_of_mem _ hx))
    | err e' =>
      have hr := h (Result.err e') (List.mem_cons_self _ _)
      simp [is_ok, is_err, Result.index] at hr

/-- C3: whenever the argument list of `zip_match` has at least one failure,
the joined outcome is a failure carrying the error of the first failing
argument in left-to-right order — regardless of the values of the all-success
prefix and of everything to the right of the first failure (which may contain
further failures). -/
theorem c3_zip_match_first_failure {T E S : Type} (f : List T → S)
    (pre : List (Result T E)) (e : E) (post : List (Result T E))
    (h : ∀ x ∈ pre, is_ok x = true) :
    zip_match f (pre ++ Result.err e :: post) = Result.err e := by
  have hall := all_ok_append_err pre e post
  have hpick := pick_first_error_impl_append e post pre h
  simp [zip_match, pick_first_error, hall, hpick]

/-- C3 witness: with argument 2 of 3 the first failure (and argument 3 also
failing), `zip_match` returns the failure of argument 2. -/
theorem c3_zip_match_first_failure_witness :
    zip_match (fun l => l.sum)
      [Result.ok 2, Result.err 5, Result.err 7] = Result.err (5 : Nat) :=
  c3_zip_match_first_failure (fun l => l.sum) [Result.ok 2] 5 [Result.err 7]
    (by decide)

/-- Shared helper: a list of successes passes the all-success test. -/
theorem all_ok_map_ok {T E : Type} (ts : List T) :
    ((ts.map (Result.ok : T → Result T E)).all (fun r => is_ok r)) = true := by
  induction ts with
  | nil => rfl
  | cons t ts ih => simp [is_ok, is_err, Result.index, ih]

/-- Shared helper: projecting the success alternatives of a list of successes
returns the underlying values. -/
theorem filterMap_okValue_map_ok {T E : Type} (ts : List T) :
    (ts.map (Result.ok : T → Result T E)).filterMap okValue = ts := by
  induction ts with
  | nil => rfl
  | cons t ts ih => simp [okValue, ih]

/-- C5: `zip_match` over all-success arguments is a success holding `f`
applied to the unwrapped success values in order; with a void-returning `f`
it is a success holding `std::monostate{}`, not a failure. -/
theorem c5_zip_match_all_success :
    (∀ (T E S : Type) (f : List T → S) (ts : List T),
      zip_match f (ts.map (Result.ok : T → Result T E)) = Result.ok (f ts)) ∧
    (∀ (T E : Type) (f : List T → monostate) (ts : List T),
      zip_match_void f (ts.map (Result.ok : T → Result T E)) =
        Result.ok ()) := by
  constructor
  · intro T E S f ts
    have h1 := all_ok_map_ok (E := E) ts
    have h2 := filterMap_okValue_map_ok (E := E) ts
    simp only [zip_match, h1, if_true, h2]
  · intro T E f ts
    have h1 := all_ok_map_ok (E := E) ts
    simp only [zip_match_void, h1, if_true]

/-- C6: when every argument has the same error type, the deduced joined error
type is that shared type; otherwise it is the variant over the whole pack,
whose set of alternative types is exactly the set of distinct error types
among the arguments (each distinct error type represented, no others). -/
theorem c6_deduced_error_type {TC : Type} [DecidableEq TC] (e : TC)
    (es : List TC) :
    (all_same_v e es = true → deduced_error_t e es = ErrKind.single e) ∧
    (all_same_v e es = false →
      deduced_error_t e es = ErrKind.union (e :: es)) ∧
    (deduced_error_t e es).alternatives.toFinset = (e :: es).toFinset := by
  refine ⟨fun h => by simp [deduced_error_t, h],
    fun h => by simp [deduced_error_t, h], ?_⟩
  by_cases h : all_same_v e es = true
  · have h' : ∀ x ∈ es, x = e := by
      intro x hx
      have hx' := List.all_eq_true.mp h x (List.mem_cons_of_mem _ hx)
      exact of_decide_eq_true hx'
    simp only [deduced_error_t, h, if_true, ErrKind.alternatives]
    ext a
    simp only [List.toFinset_cons, List.toFinset_nil, insert_emptyc_eq,
      Finset.mem_insert, Finset.mem_singleton, List.mem_toFinset]
    constructor
    · intro ha; exact Or.inl ha
    · rintro (ha | ha)
      · exact ha
      · exact h' a ha
  · simp [deduced_error_t, h, ErrKind.alternatives]

/-- C6 witness: two identical error types share their deduced type; two
distinct error types deduce the variant over both, whose alternative set is
exactly the distinct pair. -/
theorem c6_deduced_error_type_witness :
    deduced_error_t (0 : Nat) [0, 0] = ErrKind.single 0 ∧
    deduced_error_t (0 : Nat) [1] = ErrKind.union [0, 1] ∧
    (deduced_error_t (0 : Nat) [1]).alternatives.toFinset =
      ([0, 1] : List Nat).toFinset :=
  ⟨(c6_deduced_error_type 0 [0, 0]).1 (by decide),
   (c6_deduced_error_type 0 [1]).2.1 (by decide),
   (c6_deduced_error_type 0 [1]).2.2⟩

/-- C4: widening an `Error` over a subset of types into an `Error` over a
superset keeps the same concrete alternative type active and preserves the
contained value unchanged, for both the copy and the move constructor and for
every choice of active alternative in the source. -/
theorem c4_error_widening {TC V : Type} [DecidableEq TC] {L Lt : List TC}
    (h : ∀ c ∈ L, c ∈ Lt) (e : Error TC V L) :
    ((Error.widen_copy h e).value.activeType = e.value.activeType ∧
      (Error.widen_copy h e).value.val = e.value.val) ∧
    ((Error.widen_move h e).value.activeType = e.value.activeType ∧
      (Error.widen_move h e).value.val = e.value.val) := by
  refine ⟨⟨?_, rfl⟩, ⟨?_, rfl⟩⟩ <;>
    exact List.indexOf_get (List.indexOf_lt_length.mpr
      (h _ (List.get_mem L e.value.idx.1 e.value.idx.2)))

/-- C4 witness: widening the concrete value (active type code 11, payload 42)
from `[10, 11]` to `[10, 11, 12]` keeps type code 11 active with payload 42,
for both the copy and the move constructor. -/
theorem c4_error_widening_witness :
    ((Error.widen_copy sampleSubset sampleNarrowError).value.activeType =
        sampleNarrowError.value.activeType ∧
      (Error.widen_copy sampleSubset sampleNarrowError).value.val =
        sampleNarrowError.value.val) ∧
    ((Error.widen_move sampleSubset sampleNarrowError).value.activeType =
        sampleNarrowError.value.activeType ∧
      (Error.widen_move sampleSubset sampleNarrowError).value.val =
        sampleNarrowError.value.val) :=
  c4_error_widening sampleSubset sampleNarrowError

/-- Shared helper: the success alternative passes the `is_ok` filter. -/
theorem is_ok_ok {T E : Type} (t : T) :
    is_ok (Result.ok t : Result T E) = true := rfl

/-- Shared helper: the error alternative fails the `is_ok` filter. -/
theorem is_ok_err {T E : Type} (e : E) :
    is_ok (Result.err e : Result T E) = false := rfl

/-- Shared helper: `get0D` on the success alternative is the success value. -/
theorem get0D_ok {T E : Type} [Inhabited T] (t : T) :
    get0D (Result.ok t : Result T E) = t := rfl

/-- Shared helper: `okValue` on the success alternative. -/
theorem okValue_ok {T E : Type} (t : T) :
    okValue (Result.ok t : Result T E) = some t := rfl

/-- Shared helper: `okValue` on the error alternative. -/
theorem okValue_err {T E : Type} (e : E) :
    okValue (Result.err e : Result T E) = none := rfl

/-- Shared helper: `successes` is exactly the in-order extraction of the
success values. -/
theorem successes_eq_filterMap {T E : Type} [Inhabited T]
    (rs : List (Result T E)) : successes rs = rs.filterMap okValue := by
  induction rs with
  | nil => rfl
  | cons r rs ih =>
    cases r with
    | ok t =>
      simp only [successes] at ih ⊢
      rw [List.filter_cons]
      simp [is_ok_ok, get0D_ok, List.filterMap_cons, okValue_ok, ih]
    | err e =>
      simp only [successes] at ih ⊢
      rw [List.filter_cons]
      simp [is_ok_err, List.filterMap_cons, okValue_err, ih]

/-- Shared helper: transforming the error alternative does not change which
elements are successes nor their values. -/
theorem okValue_map_error {T E E' : Type} (g : E → E') (r : Result T E) :
    okValue (map_error r g) = okValue r := by
  cases r <;> rfl

/-- C8: the `successes` view yields exactly the unwrapped success values in
their original relative order, skipping every failure without observing its
error value (the view is unchanged under any transformation of the errors);
on the spec's example it yields `[1, 2]`, and with squaring composed on top,
`[1, 4]`. -/
theorem c8_successes :
    (∀ (T E : Type) [Inhabited T] (rs : List (Result T E)),
      successes rs = rs.filterMap okValue) ∧
    (∀ (T E E' : Type) [Inhabited T] (g : E → E') (rs : List (Result T E)),
      successes (rs.map (fun r => map_error r g)) = successes rs) ∧
    successes [Result.ok 1, Result.err "e", Result.ok 2, Result.err "o"]
      = [1, 2] ∧
    (successes [Result.ok 1, Result.err "e", Result.ok 2, Result.err "o"]).map
      (fun x => x * x) = [1, 4] := by
  refine ⟨fun T E _ rs => successes_eq_filterMap rs, ?_, rfl, rfl⟩
  intro T E E' _ g rs
  rw [successes_eq_filterMap, successes_eq_filterMap, List.filterMap_map]
  congr 1
  funext r
  exact okValue_map_error g r

end cppmatch
